import Mathlib

/-
Shallow embedding of the signal pipeline and the order-management policies of
src/main.py (RSI scalping backtest).

Numeric model: Python floats carried by the data frame are modelled as optional
rationals; the none case models NaN (an indicator still inside its warmup), and
every comparison that touches NaN is false, as in Python.  A label-based series
lookup at an index that is not present in the frame raises KeyError in pandas;
it is modelled by a none result that aborts the computation that performed it.
-/

/-- Python float value attached to a bar; none models NaN. -/
abbrev PFloat := Option ℚ

/-- Comparison a >= b on possibly-NaN values; false whenever either side is NaN. -/
def pge (a b : PFloat) : Bool :=
  match a, b with
  | some x, some y => decide (y ≤ x)
  | _, _ => false

/-- Comparison a <= b on possibly-NaN values; false whenever either side is NaN. -/
def ple (a b : PFloat) : Bool :=
  match a, b with
  | some x, some y => decide (x ≤ y)
  | _, _ => false

/-- One row of the indicator-extended series of calculate_indicators.  The field
opn models the Open column; ema, rsi and atr model the EMA, RSI and ATR columns. -/
structure Bar where
  opn : PFloat
  high : PFloat
  low : PFloat
  close : PFloat
  volume : PFloat
  ema : PFloat
  rsi : PFloat
  atr : PFloat
  deriving DecidableEq

/-- The index window scanned by generate_ema_signal for a given row, the Python
range(row - backcandles, row + 1), as a list of integers. -/
def windowIdx (backcandles row : ℕ) : List ℤ :=
  (List.range (backcandles + 1)).map (fun k : ℕ => (row : ℤ) - backcandles + (k : ℤ))

/-- Label-based series lookup df.column[i]; none models the KeyError raised by
pandas when i is not an index of the frame. -/
def getBar (df : List Bar) (i : ℤ) : Option Bar :=
  if i < 0 then none else df.get? i.toNat

/-- Body of the inner loop of generate_ema_signal: the uptrend flag (first
component) is cleared when Low <= EMA, the downtrend flag (second component)
when High >= EMA. -/
def scanStep (b : Bar) (fl : Bool × Bool) : Bool × Bool :=
  (if ple b.low b.ema then false else fl.1, if pge b.high b.ema then false else fl.2)

/-- Inner loop of generate_ema_signal over a list of indices; an out-of-range
read aborts the scan, as the KeyError would. -/
def scanFlagsAux (df : List Bar) : List ℤ → Bool × Bool → Option (Bool × Bool)
  | [], fl => some fl
  | i :: is, fl => (getBar df i).bind fun b => scanFlagsAux df is (scanStep b fl)

/-- Flags obtained by scanning the lookback window of one row, both starting true. -/
def scanFlags (df : List Bar) (backcandles row : ℕ) : Option (Bool × Bool) :=
  scanFlagsAux df (windowIdx backcandles row) (true, true)

/-- Trend label assigned to a scanned row: 3 when both flags survive, 2 for a
strong uptrend, 1 for a strong downtrend, 0 otherwise. -/
def emaLabel (df : List Bar) (backcandles row : ℕ) : Option ℕ :=
  (scanFlags df backcandles row).map fun fl =>
    if fl.1 && fl.2 then 3 else if fl.1 then 2 else if fl.2 then 1 else 0

/-- EMAsignal value of a row: the outer loop of generate_ema_signal only visits
rows at or after backcandles - 1, earlier rows keep the initial 0. -/
def emaSignalAt (df : List Bar) (backcandles row : ℕ) : Option ℕ :=
  if backcandles - 1 ≤ row then emaLabel df backcandles row else some 0

/-- The bar at index i falsifies the uptrend flag: its Low is at or below the EMA. -/
def lowBreak (df : List Bar) (i : ℤ) : Bool :=
  match getBar df i with
  | some b => ple b.low b.ema
  | none => false

/-- The bar at index i falsifies the downtrend flag: its High is at or above the EMA. -/
def highBreak (df : List Bar) (i : ℤ) : Bool :=
  match getBar df i with
  | some b => pge b.high b.ema
  | none => false

/-- EMA value stored at an index, NaN when the row is absent. -/
def emaAt (df : List Bar) (i : ℤ) : PFloat :=
  match getBar df i with
  | some b => b.ema
  | none => none

/-- One row of generate_total_signal: 1 (sell) when EMAsignal is 1 and
RSI >= rsi_overbought, 2 (buy) when EMAsignal is 2 and RSI <= rsi_oversold,
else 0; the buy branch is tested second and would overwrite the sell value. -/
def totSignalRow (e : ℕ) (r : PFloat) (os ob : ℚ) : ℕ :=
  if e == 2 && ple r (some os) then 2
  else if e == 1 && pge r (some ob) then 1
  else 0

/-- A row that df.dropna removes: some column of it holds NaN. -/
def hasNaN (b : Bar) : Bool :=
  b.opn.isNone || b.high.isNone || b.low.isNone || b.close.isNone ||
  b.volume.isNone || b.ema.isNone || b.rsi.isNone || b.atr.isNone

/-- A bar together with its EMAsignal and TotSignal columns. -/
structure SigRow where
  bar : Bar
  esig : ℕ
  tsig : ℕ
  deriving DecidableEq

/-- Rows of the frame after the TotSignal column is written, before dropna:
each input pair carries a bar and its EMAsignal value. -/
def attachSignals (rows : List (Bar × ℕ)) (os ob : ℚ) : List SigRow :=
  rows.map fun p => ⟨p.1, p.2, totSignalRow p.2 p.1.rsi os ob⟩

/-- Tail of generate_total_signal: write TotSignal, then dropna and reset the
index; list positions model the contiguously renumbered index. -/
def generate_total_signal (rows : List (Bar × ℕ)) (os ob : ℚ) : List SigRow :=
  (attachSignals rows os ob).filter fun r => ! hasNaN r.bar

/-- Modelled from the claim wording of C7: the series with every row whose
momentum value or reference average is undefined excluded up front. -/
def dropUndef (df : List Bar) : List Bar :=
  df.filter fun b => b.rsi.isSome && b.ema.isSome

/-- Per-bar broker view read by Strategy1.next: the current signal value, the
number of open trades, the profit of the most recently closed trade when one
exists, and the current close. -/
structure ViewA where
  signal : ℕ
  numTrades : ℕ
  lastPl : Option ℚ
  close : ℚ
  deriving DecidableEq

/-- The most recently closed trade exists and lost. -/
def plNeg : Option ℚ → Bool
  | some p => decide (p < 0)
  | none => false

/-- The most recently closed trade exists and won. -/
def plPos : Option ℚ → Bool
  | some p => decide (0 < p)
  | none => false

/-- Doubling guard of Strategy1.next: signal active, no open trade, and the most
recently closed trade lost. -/
def doubleCond (v : ViewA) : Bool :=
  decide (0 < v.signal) && (v.numTrades == 0) && v.lastPl.isSome && plNeg v.lastPl

/-- Reset guard of Strategy1.next, the elif branch: the most recently closed
trade won. -/
def resetCond (v : ViewA) : Bool :=
  v.lastPl.isSome && plPos v.lastPl

/-- Size-multiplier update performed at the top of Strategy1.next. -/
def strategy1SizeStep (initsize : ℚ) (v : ViewA) (sz : ℚ) : ℚ :=
  if doubleCond v then sz * 2 else if resetCond v then initsize else sz

/-- Size multiplier after replaying a list of bars, starting from initsize. -/
def strategy1SizeRun (initsize : ℚ) (vs : List ViewA) : ℚ :=
  vs.foldl (fun sz v => strategy1SizeStep initsize v sz) initsize

/-- Number of doubling bars seen since the last reset bar of a replay. -/
def doublingRunCount (vs : List ViewA) : ℕ :=
  vs.foldl (fun k v => if doubleCond v then k + 1 else if resetCond v then 0 else k) 0

/-- Modelled from the claim wording of C2: the current run length of consecutive
losing closed trades since the last winning close, over the closed-trade profit
sequence. -/
def lossRunSpec (pnls : List ℚ) : ℕ :=
  pnls.foldl (fun k p => if p < 0 then k + 1 else if 0 < p then 0 else k) 0

/-- Direction of an entry order. -/
inductive Side where
  | long
  | short
  deriving DecidableEq

/-- An entry order handed to the broker: direction, stop, optional target, size. -/
structure Order where
  side : Side
  sl : ℚ
  tp : Option ℚ
  size : ℚ
  deriving DecidableEq

/-- Entry orders issued by Strategy1.next: fixed 45-pip stop and target, each
branch gated on a flat position. -/
def strategy1Orders (v : ViewA) (sz : ℚ) : List Order :=
  if v.signal == 2 && v.numTrades == 0 then
    [⟨Side.long, v.close - 45 / 10000, some (v.close + 45 / 10000), sz⟩]
  else if v.signal == 1 && v.numTrades == 0 then
    [⟨Side.short, v.close + 45 / 10000, some (v.close - 45 / 10000), sz⟩]
  else []

/-- Per-bar broker view read by Strategy2.next and Strategy3.next. -/
structure ViewBC where
  signal : ℕ
  numTrades : ℕ
  close : ℚ
  atr : ℚ
  deriving DecidableEq

/-- Entry orders issued by Strategy2.next: stop distance 1.3 * ATR, target
distance 1.3 times the stop distance, each branch gated on a flat position. -/
def strategy2Orders (v : ViewBC) (sz : ℚ) : List Order :=
  if v.signal == 2 && v.numTrades == 0 then
    [⟨Side.long, v.close - 13 / 10 * v.atr, some (v.close + 13 / 10 * v.atr * (13 / 10)), sz⟩]
  else if v.signal == 1 && v.numTrades == 0 then
    [⟨Side.short, v.close + 13 / 10 * v.atr, some (v.close - 13 / 10 * v.atr * (13 / 10)), sz⟩]
  else []

/-- Entry orders issued by Strategy3.next: stop distance 1.5 * ATR, no target,
each branch gated on a flat position. -/
def strategy3Orders (v : ViewBC) (sz : ℚ) : List Order :=
  if v.signal == 2 && v.numTrades == 0 then
    [⟨Side.long, v.close - 3 / 2 * v.atr, none, sz⟩]
  else if v.signal == 1 && v.numTrades == 0 then
    [⟨Side.short, v.close + 3 / 2 * v.atr, none, sz⟩]
  else []

/-- Trailing-stop update of Strategy3.next for a long trade:
trade.sl = max(trade.sl, Close - 1.5 * ATR). -/
def trailLong (sl close atr : ℚ) : ℚ := max sl (close - 3 / 2 * atr)

/-- Trailing-stop update of Strategy3.next for a short trade:
trade.sl = min(trade.sl, Close + 1.5 * ATR). -/
def trailShort (sl close atr : ℚ) : ℚ := min sl (close + 3 / 2 * atr)

/-- Stop prices of one open long trade across its lifetime: the entry stop
followed by one update per bar, each bar supplying (close, atr). -/
def slTraceLong (sl : ℚ) : List (ℚ × ℚ) → List ℚ
  | [] => [sl]
  | b :: bs => sl :: slTraceLong (trailLong sl b.1 b.2) bs

/-- Stop prices of one open short trade across its lifetime. -/
def slTraceShort (sl : ℚ) : List (ℚ × ℚ) → List ℚ
  | [] => [sl]
  | b :: bs => sl :: slTraceShort (trailShort sl b.1 b.2) bs

/-- External events of one replay bar: whether a stop or target touch closed the
position during the bar, and the values the policy reads afterwards. -/
structure BarEv where
  exitHit : Bool
  signal : ℕ
  close : ℚ
  atr : ℚ
  deriving DecidableEq

/-- Entry orders Strategy1 issues on a bar, given the open-trade count. -/
def entryCountA (oc : ℕ) (e : BarEv) : ℕ :=
  (strategy1Orders ⟨e.signal, oc, none, e.close⟩ 1).length

/-- Entry orders Strategy2 issues on a bar, given the open-trade count. -/
def entryCountB (oc : ℕ) (e : BarEv) : ℕ :=
  (strategy2Orders ⟨e.signal, oc, e.close, e.atr⟩ 1).length

/-- Entry orders Strategy3 issues on a bar, given the open-trade count. -/
def entryCountC (oc : ℕ) (e : BarEv) : ℕ :=
  (strategy3Orders ⟨e.signal, oc, e.close, e.atr⟩ 1).length

/-- One bar of the replay loop: pending entry orders fill at the open, a stop or
target touch may close the position, then the policy may issue a new entry.
The state is (number of open trades, number of pending entry orders). -/
def ocStep (ec : ℕ → BarEv → ℕ) (st : ℕ × ℕ) (e : BarEv) : ℕ × ℕ :=
  (if e.exitHit then 0 else st.1 + st.2,
   ec (if e.exitHit then 0 else st.1 + st.2) e)

/-- Open-trade and pending-order counts after replaying a list of bars from a
flat start. -/
def ocReplay (ec : ℕ → BarEv → ℕ) (evs : List BarEv) : ℕ × ℕ :=
  evs.foldl (ocStep ec) (0, 0)

/-- Size multiplier Strategy1 holds after a bar on which the broker call may
have failed.  The source updates mysize before calling buy or sell, consults no
order outcome and has no rollback path, so the result ignores the failure flag. -/
def strategy1SizeAfterBar (initsize : ℚ) (v : ViewA) (sz : ℚ) (orderFailed : Bool) : ℚ :=
  strategy1SizeStep initsize v sz

/-- A fully defined sample bar: every indicator already out of its warmup. -/
def bFull : Bar :=
  ⟨some 1, some 2, some 1, some 2, some 1000, some 3, some 50, some 1⟩

/-- A sample bar whose EMA is still inside its warmup: NaN reference average. -/
def bNanEma : Bar :=
  ⟨some 1, some 2, some 1, some 2, some 1000, none, some 50, some 1⟩

/-- Eight fully defined bars: the shortest series whose first scanned row exists. -/
def df8full : List Bar := List.replicate 8 bFull

/-- Nine bars whose EMA is NaN everywhere. -/
def df9nan : List Bar := List.replicate 9 bNanEma

/-- Three bars whose EMA is NaN everywhere. -/
def df3nan : List Bar := List.replicate 3 bNanEma

/-- Broker view of a bar on which the doubling guard of Strategy1 fires. -/
def vDoubling : ViewA := ⟨2, 0, some (-1), 1⟩

lemma mem_windowIdx {bc row : ℕ} {i : ℤ} :
    i ∈ windowIdx bc row ↔ (row : ℤ) - bc ≤ i ∧ i ≤ row := by
  unfold windowIdx
  rw [List.mem_map]
  constructor
  · rintro ⟨k, hk, rfl⟩
    have hk2 : k < bc + 1 := List.mem_range.1 hk
    omega
  · rintro ⟨hl, hr⟩
    exact ⟨(i - ((row : ℤ) - bc)).toNat, List.mem_range.2 (by omega), by omega⟩

lemma getBar_pos {df : List Bar} {i : ℤ} (h0 : 0 ≤ i) (h1 : i < df.length) :
    ∃ b, getBar df i = some b := by
  unfold getBar
  rw [if_neg (by omega)]
  have ht : i.toNat < df.length := by omega
  exact ⟨df.get ⟨i.toNat, ht⟩, List.get?_eq_get ht⟩

lemma scanFlagsAux_all (df : List Bar) (l : List ℤ) :
    ∀ fl : Bool × Bool, (∀ i ∈ l, 0 ≤ i ∧ i < df.length) →
      scanFlagsAux df l fl =
        some (fl.1 && l.all (fun i => ! lowBreak df i),
              fl.2 && l.all (fun i => ! highBreak df i)) := by
  induction l with
  | nil => intro fl _; simp [scanFlagsAux]
  | cons i is ih =>
    intro fl h
    obtain ⟨hi0, hi1⟩ := h i (List.mem_cons_self i is)
    obtain ⟨b, hb⟩ := getBar_pos hi0 hi1
    have hlb : lowBreak df i = ple b.low b.ema := by rw [lowBreak, hb]
    have hhb : highBreak df i = pge b.high b.ema := by rw [highBreak, hb]
    rw [scanFlagsAux, hb, Option.some_bind,
      ih (scanStep b fl) (fun j hj => h j (List.mem_cons_of_mem _ hj))]
    simp only [List.all_cons, scanStep, Option.some.injEq, Prod.mk.injEq]
    constructor
    · rw [hlb]
      cases hp : ple b.low b.ema <;> simp
    · rw [hhb]
      cases hp : pge b.high b.ema <;> simp

lemma all_not_eq_false {p : ℤ → Bool} {l : List ℤ} :
    (l.all (fun i => ! p i) = false) ↔ ∃ i ∈ l, p i = true := by
  induction l with
  | nil => simp
  | cons i is ih =>
    cases hp : p i with
    | true =>
      simp only [List.all_cons, hp, Bool.not_true, Bool.false_and]
      exact ⟨fun _ => ⟨i, List.mem_cons_self i is, hp⟩, fun _ => by trivial⟩
    | false =>
      simp only [List.all_cons, hp, Bool.not_false, Bool.true_and, ih, List.mem_cons]
      constructor
      · rintro ⟨j, hj, hpj⟩
        exact ⟨j, Or.inr hj, hpj⟩
      · rintro ⟨j, hj | hj, hpj⟩
        · rw [hj] at hpj; rw [hp] at hpj; exact absurd hpj (by simp)
        · exact ⟨j, hj, hpj⟩

/-- Claim C1: the Trend Classifier scans the window of indices i - lookback
through i, which at the first processed row i = backcandles - 1 = 7 (default
lookback 8) contains index -1; that index is not an existing bar of the series,
so the in-bounds part of the claim fails there and the scan aborts on the read,
as the pandas lookup df.High[-1] raises KeyError. -/
theorem C1_window_out_of_bounds :
    ((-1 : ℤ) ∈ windowIdx 8 7) ∧ getBar df8full (-1) = none ∧
      scanFlags df8full 8 7 = none := by
  decide

/-- Claim C9: for every row strictly below backcandles - 1 the EMAsignal keeps
its initial value 0 (no trend) and the combined signal of such a label is 0. -/
theorem C9_warmup_rows (df : List Bar) (bc row : ℕ) (r : PFloat) (os ob : ℚ)
    (h : row < bc - 1) :
    emaSignalAt df bc row = some 0 ∧ totSignalRow 0 r os ob = 0 := by
  refine ⟨?_, rfl⟩
  rw [emaSignalAt, if_neg (by omega)]

theorem C9_warmup_rows_witness :
    emaSignalAt df8full 8 0 = some 0 ∧ totSignalRow 0 (some 50) 10 90 = 0 :=
  C9_warmup_rows df8full 8 0 (some 50) 10 90 (by decide)

/-- Claim C4 (amended to rows whose whole window lies inside the series, i at or
after lookback; at i = lookback - 1 the scan aborts, see C1): the scan succeeds,
the uptrend flag is falsified exactly when some bar of the window has its low at
or below the reference line, the downtrend flag exactly when some bar has its
high at or above it, and the label is 3 (ambiguous) when both flags survive,
2 (strong uptrend) when only the uptrend flag survives, 1 (strong downtrend)
when only the downtrend flag survives, and 0 (no trend) otherwise. -/
theorem C4_trend_classifier (df : List Bar) (bc row : ℕ)
    (h1 : bc ≤ row) (h2 : row < df.length) :
    ∃ u d : Bool, scanFlags df bc row = some (u, d) ∧
      (u = false ↔ ∃ i ∈ windowIdx bc row, lowBreak df i = true) ∧
      (d = false ↔ ∃ i ∈ windowIdx bc row, highBreak df i = true) ∧
      (emaLabel df bc row = some 3 ↔ u = true ∧ d = true) ∧
      (emaLabel df bc row = some 2 ↔ u = true ∧ d = false) ∧
      (emaLabel df bc row = some 1 ↔ u = false ∧ d = true) ∧
      (emaLabel df bc row = some 0 ↔ u = false ∧ d = false) := by
  have hbounds : ∀ i ∈ windowIdx bc row, 0 ≤ i ∧ i < df.length := by
    intro i hi
    rw [mem_windowIdx] at hi
    omega
  have hscan : scanFlags df bc row =
      some ((windowIdx bc row).all (fun i => ! lowBreak df i),
            (windowIdx bc row).all (fun i => ! highBreak df i)) := by
    rw [scanFlags, scanFlagsAux_all df _ _ hbounds]
    rfl
  refine ⟨_, _, hscan, all_not_eq_false, all_not_eq_false, ?_, ?_, ?_, ?_⟩
  all_goals
    rw [emaLabel, hscan, Option.map_some']
  all_goals
    cases hU : (windowIdx bc row).all (fun i => ! lowBreak df i) <;>
      cases hD : (windowIdx bc row).all (fun i => ! highBreak df i) <;> simp

theorem C4_trend_classifier_witness :
    ∃ u d : Bool, scanFlags df8full 1 1 = some (u, d) ∧
      (u = false ↔ ∃ i ∈ windowIdx 1 1, lowBreak df8full i = true) ∧
      (d = false ↔ ∃ i ∈ windowIdx 1 1, highBreak df8full i = true) ∧
      (emaLabel df8full 1 1 = some 3 ↔ u = true ∧ d = true) ∧
      (emaLabel df8full 1 1 = some 2 ↔ u = true ∧ d = false) ∧
      (emaLabel df8full 1 1 = some 1 ↔ u = false ∧ d = true) ∧
      (emaLabel df8full 1 1 = some 0 ↔ u = false ∧ d = false) :=
  C4_trend_classifier df8full 1 1 (by decide) (by decide)

/-- Claim C4 counterexample: the first processed row i = backcandles - 1 = 7 is
a bar with sufficient history in the sense of the specification, yet on an
eight-bar series the scan aborts on the read at index -1 and no trend label of
any kind is produced for it. -/
theorem C4_first_row_no_label :
    scanFlags df8full 8 7 = none ∧ emaLabel df8full 8 7 = none := by
  decide

/-- Claim C10 (amended to rows whose whole window lies inside the series, i at
or after backcandles; at i = backcandles - 1 the scan aborts, see C1): when the
EMA is undefined on every bar of the window, every comparison against it is
false, both flags survive, the label is 3 (ambiguous), and a label of 3 always
yields combined signal 0. -/
theorem C10_nan_window_ambiguous (df : List Bar) (bc row : ℕ) (r : PFloat)
    (os ob : ℚ) (h1 : bc ≤ row) (h2 : row < df.length)
    (hnan : ∀ i ∈ windowIdx bc row, emaAt df i = none) :
    scanFlags df bc row = some (true, true) ∧ emaLabel df bc row = some 3 ∧
      totSignalRow 3 r os ob = 0 := by
  have hbounds : ∀ i ∈ windowIdx bc row, 0 ≤ i ∧ i < df.length := by
    intro i hi
    rw [mem_windowIdx] at hi
    omega
  have hlb : ∀ i ∈ windowIdx bc row, lowBreak df i = false := by
    intro i hi
    obtain ⟨b, hb⟩ := getBar_pos (hbounds i hi).1 (hbounds i hi).2
    have he : b.ema = none := by
      have h3 := hnan i hi
      rw [emaAt, hb] at h3
      exact h3
    rw [lowBreak, hb]
    show ple b.low b.ema = false
    rw [he]
    cases b.low <;> rfl
  have hhb : ∀ i ∈ windowIdx bc row, highBreak df i = false := by
    intro i hi
    obtain ⟨b, hb⟩ := getBar_pos (hbounds i hi).1 (hbounds i hi).2
    have he : b.ema = none := by
      have h3 := hnan i hi
      rw [emaAt, hb] at h3
      exact h3
    rw [highBreak, hb]
    show pge b.high b.ema = false
    rw [he]
    cases b.high <;> rfl
  have hscan : scanFlags df bc row = some (true, true) := by
    rw [scanFlags, scanFlagsAux_all df _ _ hbounds]
    have hx : (windowIdx bc row).all (fun i => ! lowBreak df i) = true :=
      List.all_eq_true.2 (fun i hi => by simp [hlb i hi])
    have hy : (windowIdx bc row).all (fun i => ! highBreak df i) = true :=
      List.all_eq_true.2 (fun i hi => by simp [hhb i hi])
    rw [hx, hy]
    rfl
  refine ⟨hscan, ?_, rfl⟩
  rw [emaLabel, hscan, Option.map_some']
  rfl

theorem C10_nan_window_ambiguous_witness :
    scanFlags df3nan 1 2 = some (true, true) ∧ emaLabel df3nan 1 2 = some 3 ∧
      totSignalRow 3 (some 50) 10 90 = 0 :=
  C10_nan_window_ambiguous df3nan 1 2 (some 50) 10 90 (by decide) (by decide)
    (by decide)

/-- Claim C10 counterexample: row backcandles - 1 = 7 satisfies the premise of
the claim on a nine-bar series whose EMA is undefined everywhere, yet the
classifier aborts on the out-of-range read at index -1 instead of labelling the
bar 3 (ambiguous). -/
theorem C10_first_row_not_ambiguous :
    (∀ i ∈ windowIdx 8 7, emaAt df9nan i = none) ∧ emaLabel df9nan 8 7 = none := by
  decide

/-- Claim C3: the combined signal of a retained row is 1 (sell) exactly when
the trend label is 1 (strong downtrend) and the momentum value is at or above
the overbought threshold, 2 (buy) exactly when the label is 2 (strong uptrend)
and the momentum value is at or below the oversold threshold, and 0 otherwise;
both boundaries are inclusive and labels 3 (ambiguous) and 0 (no trend) always
give 0. -/
theorem C3_signal_combiner (e : ℕ) (r : PFloat) (os ob : ℚ) :
    (totSignalRow e r os ob = 1 ↔ e = 1 ∧ pge r (some ob) = true) ∧
    (totSignalRow e r os ob = 2 ↔ e = 2 ∧ ple r (some os) = true) ∧
    (totSignalRow e r os ob = 0 ↔
      ¬(e = 1 ∧ pge r (some ob) = true) ∧ ¬(e = 2 ∧ ple r (some os) = true)) ∧
    totSignalRow 2 (some os) os ob = 2 ∧ totSignalRow 1 (some ob) os ob = 1 ∧
    totSignalRow 3 r os ob = 0 ∧ totSignalRow 0 r os ob = 0 := by
  have hA : (e == 2 && ple r (some os)) = true ↔ e = 2 ∧ ple r (some os) = true := by
    rw [Bool.and_eq_true, beq_iff_eq]
  have hB : (e == 1 && pge r (some ob)) = true ↔ e = 1 ∧ pge r (some ob) = true := by
    rw [Bool.and_eq_true, beq_iff_eq]
  have hos : ple (some os) (some os) = true := by simp [ple]
  have hob : pge (some ob) (some ob) = true := by simp [pge]
  refine ⟨?_, ?_, ?_, ?_, ?_, rfl, rfl⟩
  · unfold totSignalRow
    split_ifs with hx hy
    · constructor
      · intro h; exact absurd h (by decide)
      · rintro ⟨he, -⟩
        have := hA.1 hx
        omega
    · exact ⟨fun _ => hB.1 hy, fun _ => rfl⟩
    · constructor
      · intro h; exact absurd h (by decide)
      · intro h
        exact absurd (hB.2 h) hy
  · unfold totSignalRow
    split_ifs with hx hy
    · exact ⟨fun _ => hA.1 hx, fun _ => rfl⟩
    · constructor
      · intro h; exact absurd h (by decide)
      · intro h
        exact absurd (hA.2 h) hx
    · constructor
      · intro h; exact absurd h (by decide)
      · intro h
        exact absurd (hA.2 h) hx
  · unfold totSignalRow
    split_ifs with hx hy
    · constructor
      · intro h; exact absurd h (by decide)
      · rintro ⟨-, hn2⟩
        exact absurd (hA.1 hx) hn2
    · constructor
      · intro h; exact absurd h (by decide)
      · rintro ⟨hn1, -⟩
        exact absurd (hB.1 hy) hn1
    · exact ⟨fun _ => ⟨fun h => hy (hB.2 h), fun h => hx (hA.2 h)⟩, fun _ => rfl⟩
  · simp [totSignalRow, hos]
  · simp [totSignalRow, hob]

lemma slTraceLong_head (s : ℚ) (l : List (ℚ × ℚ)) :
    ∃ t, slTraceLong s l = s :: t := by
  cases l with
  | nil => exact ⟨[], rfl⟩
  | cons b bs => exact ⟨_, rfl⟩

lemma slTraceShort_head (s : ℚ) (l : List (ℚ × ℚ)) :
    ∃ t, slTraceShort s l = s :: t := by
  cases l with
  | nil => exact ⟨[], rfl⟩
  | cons b bs => exact ⟨_, rfl⟩

lemma chain_slTraceLong (s : ℚ) (l : List (ℚ × ℚ)) :
    List.Chain' (fun a b => a ≤ b) (slTraceLong s l) := by
  induction l generalizing s with
  | nil => simp [slTraceLong]
  | cons b bs ih =>
    obtain ⟨t, ht⟩ := slTraceLong_head (trailLong s b.1 b.2) bs
    show List.Chain' (fun a b => a ≤ b) (s :: slTraceLong (trailLong s b.1 b.2) bs)
    rw [ht, List.chain'_cons]
    exact ⟨le_max_left _ _, ht ▸ ih (trailLong s b.1 b.2)⟩

lemma chain_slTraceShort (s : ℚ) (l : List (ℚ × ℚ)) :
    List.Chain' (fun a b => b ≤ a) (slTraceShort s l) := by
  induction l generalizing s with
  | nil => simp [slTraceShort]
  | cons b bs ih =>
    obtain ⟨t, ht⟩ := slTraceShort_head (trailShort s b.1 b.2) bs
    show List.Chain' (fun a b => b ≤ a) (s :: slTraceShort (trailShort s b.1 b.2) bs)
    rw [ht, List.chain'_cons]
    exact ⟨min_le_left _ _, ht ▸ ih (trailShort s b.1 b.2)⟩

/-- Claim C5: over the lifetime of one open trade of Strategy3 the stop
sequence is non-decreasing for a long trade and non-increasing for a short
trade, each single update moving the stop only in favour of the trade. -/
theorem C5_trailing_stop_monotone (sl close atr : ℚ) (bars : List (ℚ × ℚ)) :
    List.Chain' (fun a b => a ≤ b) (slTraceLong sl bars) ∧
    List.Chain' (fun a b => b ≤ a) (slTraceShort sl bars) ∧
    sl ≤ trailLong sl close atr ∧ trailShort sl close atr ≤ sl :=
  ⟨chain_slTraceLong sl bars, chain_slTraceShort sl bars,
    le_max_left _ _, min_le_left _ _⟩

/-- Claim C7 (amended): the rows removed for undefined values are dropped only
at the end of generate_total_signal, after the classifier and the combiner have
run over the full series; the surviving rows carry no undefined field and form
a sublist of the signal-attached series (dropped entirely, not zero-filled,
with positions renumbered contiguously). -/
theorem C7_drop_after_signals (rows : List (Bar × ℕ)) (os ob : ℚ) :
    (∀ x ∈ generate_total_signal rows os ob, hasNaN x.bar = false) ∧
    (generate_total_signal rows os ob).Sublist (attachSignals rows os ob) := by
  constructor
  · intro x hx
    have h := List.of_mem_filter hx
    simpa using h
  · exact List.filter_sublist _

theorem C7_drop_after_signals_witness :
    hasNaN (SigRow.mk bFull 2 0).bar = false :=
  (C7_drop_after_signals [(bFull, 2)] 10 90).1 (SigRow.mk bFull 2 0) (by decide)

/-- Claim C7 counterexample: on a nine-bar series whose EMA is undefined on
every row, the classifier embedded from the source still processes those rows
and labels row 8 ambiguous, which is only possible because it observed bars
with an undefined reference average; had the rows been excluded beforehand, as
the claim states, the classifier would have received the empty series and
produced no label at all. -/
theorem C7_not_excluded_before_classifier :
    emaLabel df9nan 8 8 = some 3 ∧ dropUndef df9nan = [] ∧
      emaLabel (dropUndef df9nan) 8 8 = none := by
  decide

lemma strategy1SizeRun_concat (initsize : ℚ) (vs : List ViewA) (v : ViewA) :
    strategy1SizeRun initsize (vs ++ [v]) =
      strategy1SizeStep initsize v (strategy1SizeRun initsize vs) := by
  simp [strategy1SizeRun, List.foldl_append]

lemma doublingRunCount_concat (vs : List ViewA) (v : ViewA) :
    doublingRunCount (vs ++ [v]) =
      if doubleCond v then doublingRunCount vs + 1
      else if resetCond v then 0 else doublingRunCount vs := by
  simp [doublingRunCount, List.foldl_append]

/-- Claim C2 (amended): along any replay of Strategy1 the size multiplier
equals initsize times 2 to the number of doubling bars since the last reset
bar, where a doubling bar is one with an active signal, no open trade and a
negative last-closed profit, and a reset bar is one whose last-closed profit is
positive; each closed loss therefore contributes its doubling only at the next
such entry opportunity, not already at the bar on which it closed. -/
theorem C2_martingale_power (initsize : ℚ) (vs : List ViewA) :
    strategy1SizeRun initsize vs = initsize * 2 ^ doublingRunCount vs := by
  induction vs using List.reverseRecOn with
  | nil => simp [strategy1SizeRun, doublingRunCount]
  | append_singleton vs v ih =>
    rw [strategy1SizeRun_concat, doublingRunCount_concat, strategy1SizeStep]
    by_cases hd : doubleCond v = true
    · rw [if_pos hd, if_pos hd, ih, pow_succ]
      ring
    · rw [if_neg hd, if_neg hd]
      by_cases hr : resetCond v = true
      · rw [if_pos hr, if_pos hr, pow_zero, mul_one]
      · rw [if_neg hr, if_neg hr, ih]

/-- Claim C2 counterexample: a realizable replay refuting the claimed per-bar
invariant.  Bar one: buy signal, flat, nothing closed yet, so the trade that
will lose is opened at size initsize.  Bar two: that trade has already closed
at a loss, the signal is inactive and no trade is open, so the doubling guard
does not fire.  The closed-trade profit sequence is one loss, giving a claimed
multiplier of initsize times 2, yet the replayed multiplier is still initsize. -/
theorem C2_not_every_bar :
    strategy1SizeRun (1 / 5) [ViewA.mk 2 0 none 1, ViewA.mk 0 0 (some (-1)) 1] = 1 / 5 ∧
    lossRunSpec [(-1 : ℚ)] = 1 ∧
    strategy1SizeRun (1 / 5) [ViewA.mk 2 0 none 1, ViewA.mk 0 0 (some (-1)) 1] ≠
      (1 / 5) * 2 ^ lossRunSpec [(-1 : ℚ)] := by
  have h1 : strategy1SizeRun (1 / 5) [ViewA.mk 2 0 none 1, ViewA.mk 0 0 (some (-1)) 1] =
      1 / 5 := by
    norm_num [strategy1SizeRun, List.foldl, strategy1SizeStep, doubleCond, resetCond,
      plNeg, plPos]
  have h2 : lossRunSpec [(-1 : ℚ)] = 1 := by
    norm_num [lossRunSpec, List.foldl]
  refine ⟨h1, h2, ?_⟩
  rw [h1, h2, pow_one]
  norm_num

lemma strategy1Orders_spec (v : ViewA) (sz : ℚ) :
    (strategy1Orders v sz).length ≤ 1 ∧ (strategy1Orders v sz ≠ [] → v.numTrades = 0) := by
  unfold strategy1Orders
  split_ifs with h1 h2
  · simp only [Bool.and_eq_true, beq_iff_eq] at h1
    exact ⟨by simp, fun _ => h1.2⟩
  · simp only [Bool.and_eq_true, beq_iff_eq] at h2
    exact ⟨by simp, fun _ => h2.2⟩
  · exact ⟨by simp, fun hne => absurd rfl hne⟩

lemma strategy2Orders_spec (v : ViewBC) (sz : ℚ) :
    (strategy2Orders v sz).length ≤ 1 ∧ (strategy2Orders v sz ≠ [] → v.numTrades = 0) := by
  unfold strategy2Orders
  split_ifs with h1 h2
  · simp only [Bool.and_eq_true, beq_iff_eq] at h1
    exact ⟨by simp, fun _ => h1.2⟩
  · simp only [Bool.and_eq_true, beq_iff_eq] at h2
    exact ⟨by simp, fun _ => h2.2⟩
  · exact ⟨by simp, fun hne => absurd rfl hne⟩

lemma strategy3Orders_spec (v : ViewBC) (sz : ℚ) :
    (strategy3Orders v sz).length ≤ 1 ∧ (strategy3Orders v sz ≠ [] → v.numTrades = 0) := by
  unfold strategy3Orders
  split_ifs with h1 h2
  · simp only [Bool.and_eq_true, beq_iff_eq] at h1
    exact ⟨by simp, fun _ => h1.2⟩
  · simp only [Bool.and_eq_true, beq_iff_eq] at h2
    exact ⟨by simp, fun _ => h2.2⟩
  · exact ⟨by simp, fun hne => absurd rfl hne⟩

lemma entryCountA_spec (oc : ℕ) (e : BarEv) :
    entryCountA oc e ≤ 1 ∧ (entryCountA oc e ≠ 0 → oc = 0) := by
  have h := strategy1Orders_spec ⟨e.signal, oc, none, e.close⟩ 1
  refine ⟨h.1, fun hne => ?_⟩
  exact h.2 (fun hl => hne (by rw [entryCountA, hl]; rfl))

lemma entryCountB_spec (oc : ℕ) (e : BarEv) :
    entryCountB oc e ≤ 1 ∧ (entryCountB oc e ≠ 0 → oc = 0) := by
  have h := strategy2Orders_spec ⟨e.signal, oc, e.close, e.atr⟩ 1
  refine ⟨h.1, fun hne => ?_⟩
  exact h.2 (fun hl => hne (by rw [entryCountB, hl]; rfl))

lemma entryCountC_spec (oc : ℕ) (e : BarEv) :
    entryCountC oc e ≤ 1 ∧ (entryCountC oc e ≠ 0 → oc = 0) := by
  have h := strategy3Orders_spec ⟨e.signal, oc, e.close, e.atr⟩ 1
  refine ⟨h.1, fun hne => ?_⟩
  exact h.2 (fun hl => hne (by rw [entryCountC, hl]; rfl))

lemma ocReplay_bound (ec : ℕ → BarEv → ℕ)
    (h : ∀ oc e, ec oc e ≤ 1 ∧ (ec oc e ≠ 0 → oc = 0)) :
    ∀ (evs : List BarEv) (st : ℕ × ℕ), st.1 + st.2 ≤ 1 →
      (evs.foldl (ocStep ec) st).1 + (evs.foldl (ocStep ec) st).2 ≤ 1 := by
  intro evs
  induction evs with
  | nil => intro st hst; simpa using hst
  | cons e evs ih =>
    intro st hst
    rw [List.foldl_cons]
    apply ih
    show (ocStep ec st e).1 + (ocStep ec st e).2 ≤ 1
    rw [ocStep]
    dsimp only
    have hA : (if e.exitHit then 0 else st.1 + st.2) ≤ 1 := by
      split <;> omega
    rcases Nat.eq_zero_or_pos (ec (if e.exitHit then 0 else st.1 + st.2) e) with hz | hp
    · omega
    · have h0 := (h (if e.exitHit then 0 else st.1 + st.2) e).2 (by omega)
      have h1 := (h (if e.exitHit then 0 else st.1 + st.2) e).1
      omega

/-- Claim C6: for every policy variant a new entry order is only issued on a
bar with no open trade, at most one entry order is issued per bar, and along
any replay of the one-position broker loop the number of open trades never
exceeds one. -/
theorem C6_single_open_trade :
    (∀ (v : ViewA) (sz : ℚ), (strategy1Orders v sz).length ≤ 1 ∧
      (strategy1Orders v sz ≠ [] → v.numTrades = 0)) ∧
    (∀ (v : ViewBC) (sz : ℚ), (strategy2Orders v sz).length ≤ 1 ∧
      (strategy2Orders v sz ≠ [] → v.numTrades = 0)) ∧
    (∀ (v : ViewBC) (sz : ℚ), (strategy3Orders v sz).length ≤ 1 ∧
      (strategy3Orders v sz ≠ [] → v.numTrades = 0)) ∧
    (∀ evs : List BarEv, (ocReplay entryCountA evs).1 ≤ 1 ∧
      (ocReplay entryCountB evs).1 ≤ 1 ∧ (ocReplay entryCountC evs).1 ≤ 1) := by
  refine ⟨strategy1Orders_spec, strategy2Orders_spec, strategy3Orders_spec,
    fun evs => ⟨?_, ?_, ?_⟩⟩
  · have h := ocReplay_bound entryCountA entryCountA_spec evs (0, 0) (by simp)
    rw [ocReplay]
    omega
  · have h := ocReplay_bound entryCountB entryCountB_spec evs (0, 0) (by simp)
    rw [ocReplay]
    omega
  · have h := ocReplay_bound entryCountC entryCountC_spec evs (0, 0) (by simp)
    rw [ocReplay]
    omega

theorem C6_single_open_trade_witness :
    (ViewA.mk 2 0 none 1).numTrades = 0 ∧
      (ocReplay entryCountA [BarEv.mk false 2 1 1]).1 ≤ 1 :=
  ⟨(C6_single_open_trade.1 (ViewA.mk 2 0 none 1) 1).2 (by decide),
   (C6_single_open_trade.2.2.2 [BarEv.mk false 2 1 1]).1⟩

/-- Claim C8 (amended): when the doubling guard holds, the size multiplier after
the bar is twice the one before it for every order outcome alike; the update is
computed from the bar-start view before the order is issued and the source has
no rollback path, so a failed order does not restore the previous multiplier. -/
theorem C8_no_rollback (initsize : ℚ) (v : ViewA) (sz : ℚ) (f f' : Bool)
    (h : doubleCond v = true) :
    strategy1SizeAfterBar initsize v sz f = strategy1SizeAfterBar initsize v sz f' ∧
    strategy1SizeAfterBar initsize v sz f = sz * 2 := by
  refine ⟨rfl, ?_⟩
  rw [strategy1SizeAfterBar, strategy1SizeStep, if_pos h]

theorem C8_no_rollback_witness :
    strategy1SizeAfterBar (1 / 5) vDoubling (1 / 5) true =
      strategy1SizeAfterBar (1 / 5) vDoubling (1 / 5) false ∧
    strategy1SizeAfterBar (1 / 5) vDoubling (1 / 5) true = (1 / 5) * 2 :=
  C8_no_rollback (1 / 5) vDoubling (1 / 5) true false (by decide)

/-- Claim C8 counterexample: a bar on which the doubling guard fires issues an
entry order, and even when that order fails the multiplier after the bar is
2/5, not the 1/5 it held before the bar, so the PolicyState is not left
unchanged by a failed broker call. -/
theorem C8_state_changed_by_failed_bar :
    strategy1Orders vDoubling (2 / 5) ≠ [] ∧
    strategy1SizeAfterBar (1 / 5) vDoubling (1 / 5) true = 2 / 5 ∧
    (2 / 5 : ℚ) ≠ 1 / 5 := by
  refine ⟨?_, ?_, by norm_num⟩
  · simp [strategy1Orders, vDoubling]
  · norm_num [strategy1SizeAfterBar, strategy1SizeStep, doubleCond, vDoubling, plNeg]
